import Mathlib

set_option maxRecDepth 4000

namespace FinResearch

/-- Text of the JavaScript program is modelled as a list of characters. -/
abbrev Str := List Char

/-- One step of the leftmost, non-overlapping scan that models
JavaScript String.prototype.split with the two-character separator
of two consecutive newline characters, as used by
script.js line 460.  The accumulator holds the segments
already emitted and the current segment in reversed order; a segment is
emitted as soon as the separator completes. -/
def splitStep (acc : List Str × Str) (c : Char) : List Str × Str :=
  if c = '\n' ∧ acc.2.head? = some '\n' then (acc.1 ++ [acc.2.tail.reverse], [])
  else (acc.1, c :: acc.2)

/-- Model of buffer.split with the blank-line separator (script.js line 460):
all separated parts in order, the last part being the text after the last
separator occurrence (possibly empty). -/
def jsSplitSep (s : Str) : List Str :=
  (s.foldl splitStep ([], [])).1 ++ [(s.foldl splitStep ([], [])).2.reverse]

/-- Does the text start with the given marker?  Models the anchored part
of the line-anchored regular expressions in script.js lines 467 and 468. -/
def strStarts : Str → Str → Bool
  | [], _ => true
  | _ :: _, [] => false
  | c :: cp, d :: ds => c = d && strStarts cp ds

/-- JavaScript String.prototype.includes: substring occurrence test
(script.js lines 273 and 294 to 297). -/
def occursIn (pat : Str) : Str → Bool
  | [] => strStarts pat []
  | c :: t => strStarts pat (c :: t) || occursIn pat t

/-- JavaScript toLowerCase, restricted to the character sets the program
actually compares (ASCII); locale-specific Unicode lowering is outside the
model. -/
def jsLower (s : Str) : Str := s.map Char.toLower

/-- Characters removed by JavaScript String.prototype.trim.  The full
ECMAScript set also holds exotic Unicode spaces; the ASCII white space and
line terminators suffice for the inputs of this program. -/
def isWsChar (c : Char) : Bool :=
  c = ' ' || c = '\t' || c = '\n' || c = '\r' || c = Char.ofNat 11 || c = Char.ofNat 12

/-- JavaScript String.prototype.trim (script.js lines 415 and 464). -/
def jsTrim (s : Str) : Str :=
  ((s.dropWhile isWsChar).reverse.dropWhile isWsChar).reverse

/-- Split a segment into its lines at single newline characters, keeping
empty lines, as the multiline flag of the regular expressions in
script.js lines 467 and 468 does. -/
def splitLines : Str → List Str
  | [] => [[]]
  | c :: cs =>
      if c = '\n' then [] :: splitLines cs
      else
        match splitLines cs with
        | l :: ls => (c :: l) :: ls
        | [] => [[c]]

/-- Model of seg.match over the segment with a line-anchored marker
followed by a nonempty capture, multiline flag set: the capture of the
first line that starts with the marker and continues with at least one
character (script.js lines 467 and 468). -/
def lineCapture (mark : Str) (seg : Str) : Option Str :=
  (splitLines seg).findSome? fun l =>
    if strStarts mark l then
      let r := l.drop mark.length
      if r.isEmpty then none else some r
    else none

/-- The event-name marker of an SSE frame (script.js line 467). -/
def eventMark : Str := ("event: ").data

/-- The data marker of an SSE frame (script.js line 468). -/
def dataMark : Str := ("data: ").data

/-- One complete, complete-segment record of the stream as the code sees
it before JSON parsing: event type capture and data capture. -/
structure RawRecord where
  etype : Str
  edata : Str
deriving DecidableEq, Repr

/-- Extraction of a record from one complete segment: segments whose trim
is empty are skipped (script.js line 464), then both line-anchored
matches must succeed (script.js lines 467 to 470); otherwise the segment
yields nothing. -/
def extractRecord (seg : Str) : Option RawRecord :=
  if (jsTrim seg).isEmpty then none
  else
    match lineCapture eventMark seg, lineCapture dataMark seg with
    | some t, some d => some ⟨t, d⟩
    | _, _ => none

/-- The complete segments produced by the per-chunk loop of script.js
lines 452 to 461: the buffer receives each chunk, is split at blank
lines, the final part is popped back into the buffer, and the remaining
parts are the complete segments of this iteration.  On end of stream the
loop breaks and the leftover buffer is dropped (line 455). -/
def feedChunks (buf : Str) : List Str → List Str
  | [] => []
  | c :: cs =>
      let parts := jsSplitSep (buf ++ c)
      parts.dropLast ++ feedChunks (parts.getLastD []) cs

/-- The ordered record sequence the decode loop yields for a chunk
sequence. -/
def decodeRecords (chunks : List Str) : List RawRecord :=
  (feedChunks [] chunks).filterMap extractRecord

/-- The unconsumed remainder after the split machine has scanned a whole
body: the text after the last separator occurrence. -/
def remTail (s : Str) : Str :=
  (s.foldl splitStep ([], [])).2.reverse

/-- The body truncated right after its last complete record separator:
everything before the final unconsumed remainder. -/
def completeCore (s : Str) : Str :=
  s.take (s.length - (remTail s).length)

/-- JSON values as produced by JSON.parse.  Numbers keep their lexical
parts (sign, integer digits, fraction digits, exponent) since the program
never computes with them; only truthiness is consumed. -/
inductive Json where
  | null : Json
  | bool (b : Bool) : Json
  | num (neg : Bool) (ip : Str) (fp : Str) (ex : Option (Bool × Str)) : Json
  | str (s : Str) : Json
  | arr (xs : List Json) : Json
  | obj (kvs : List (Str × Json)) : Json

/-- A JavaScript value slot: none models undefined. -/
abbrev JsVal := Option Json

/-- White space accepted by JSON.parse between tokens. -/
def isJsonWs (c : Char) : Bool :=
  c = ' ' || c = '\t' || c = '\n' || c = '\r'

def skipWs (s : Str) : Str := s.dropWhile isJsonWs

def hexVal (c : Char) : Option Nat :=
  if '0' ≤ c ∧ c ≤ '9' then some (c.toNat - '0'.toNat)
  else if 'a' ≤ c ∧ c ≤ 'f' then some (c.toNat - 'a'.toNat + 10)
  else if 'A' ≤ c ∧ c ≤ 'F' then some (c.toNat - 'A'.toNat + 10)
  else none

def escCharOf (c : Char) : Option Char :=
  if c = '"' then some '"'
  else if c = '\\' then some '\\'
  else if c = '/' then some '/'
  else if c = 'b' then some (Char.ofNat 8)
  else if c = 'f' then some (Char.ofNat 12)
  else if c = 'n' then some '\n'
  else if c = 'r' then some '\r'
  else if c = 't' then some '\t'
  else none

/-- Body of a JSON string after the opening quote; returns the decoded
characters and the rest after the closing quote.  Code points from
surrogate escapes fall back to the null character, a corner JavaScript
strings represent but this model does not need. -/
def parseStrBody : Str → Option (Str × Str)
  | [] => none
  | c :: cs =>
      if c = '"' then some ([], cs)
      else if c = '\\' then
        match cs with
        | [] => none
        | e :: cs2 =>
            if e = 'u' then
              match cs2 with
              | h1 :: h2 :: h3 :: h4 :: rest =>
                  match hexVal h1, hexVal h2, hexVal h3, hexVal h4 with
                  | some a, some b, some c3, some d =>
                      match parseStrBody rest with
                      | some (tail, r) =>
                          some (Char.ofNat (((a * 16 + b) * 16 + c3) * 16 + d) :: tail, r)
                      | none => none
                  | _, _, _, _ => none
              | _ => none
            else
              match escCharOf e with
              | some d =>
                  match parseStrBody cs2 with
                  | some (tail, r) => some (d :: tail, r)
                  | none => none
              | none => none
      else if c.toNat < 32 then none
      else
        match parseStrBody cs with
        | some (tail, r) => some (c :: tail, r)
        | none => none

def isDigitC (c : Char) : Bool := '0' ≤ c && c ≤ '9'

def takeDigits (s : Str) : Str × Str :=
  (s.takeWhile isDigitC, s.dropWhile isDigitC)

/-- JSON number grammar: optional minus, integer part with no leading
zeros, optional fraction, optional exponent. -/
def parseNumber (s : Str) : Option (Json × Str) :=
  let (neg, s1) :=
    match s with
    | '-' :: r => (true, r)
    | _ => (false, s)
  match s1 with
  | [] => none
  | c :: _ =>
      if ¬ (isDigitC c) then none
      else
        let (ip, s2) := takeDigits s1
        if ip.length > 1 ∧ ip.headD '0' = '0' then none
        else
          let (fp, s3) :=
            match s2 with
            | '.' :: r =>
                let (ds, r2) := takeDigits r
                if ds.isEmpty then ([], '.' :: r) else (ds, r2)
            | _ => ([], s2)
          match s3 with
          | '.' :: _ => none
          | 'e' :: r | 'E' :: r =>
              let (esgn, r1) :=
                match r with
                | '+' :: r2 => (false, r2)
                | '-' :: r2 => (true, r2)
                | _ => (false, r)
              let (eds, r3) := takeDigits r1
              if eds.isEmpty then none
              else some (Json.num neg ip fp (some (esgn, eds)), r3)
          | _ => some (Json.num neg ip fp none, s3)

mutual

/-- Fueled recursive-descent JSON value parser modelling JSON.parse
(script.js line 472 and the other response.json readings). -/
def parseVal : Nat → Str → Option (Json × Str)
  | 0, _ => none
  | fuel + 1, s =>
      match skipWs s with
      | [] => none
      | c :: rest =>
          if c = 'n' then
            match rest with
            | 'u' :: 'l' :: 'l' :: r => some (Json.null, r)
            | _ => none
          else if c = 't' then
            match rest with
            | 'r' :: 'u' :: 'e' :: r => some (Json.bool true, r)
            | _ => none
          else if c = 'f' then
            match rest with
            | 'a' :: 'l' :: 's' :: 'e' :: r => some (Json.bool false, r)
            | _ => none
          else if c = '"' then
            match parseStrBody rest with
            | some (body, r) => some (Json.str body, r)
            | none => none
          else if c = '[' then
            match skipWs rest with
            | ']' :: r => some (Json.arr [], r)
            | r1 =>
                match parseVal fuel r1 with
                | some (v, r2) => parseArrRest fuel r2 [v]
                | none => none
          else if c = '{' then
            match skipWs rest with
            | '}' :: r => some (Json.obj [], r)
            | r1 =>
                match parseMember fuel r1 with
                | some (kv, r2) => parseObjRest fuel r2 [kv]
                | none => none
          else parseNumber (c :: rest)

/-- Remaining array items after at least one value has been read. -/
def parseArrRest : Nat → Str → List Json → Option (Json × Str)
  | 0, _, _ => none
  | fuel + 1, s, acc =>
      match skipWs s with
      | ']' :: r => some (Json.arr acc.reverse, r)
      | ',' :: r =>
          match parseVal fuel r with
          | some (v, r2) => parseArrRest fuel r2 (v :: acc)
          | none => none
      | _ => none

/-- One string key, colon, value member of an object. -/
def parseMember : Nat → Str → Option ((Str × Json) × Str)
  | 0, _ => none
  | fuel + 1, s =>
      match skipWs s with
      | '"' :: r =>
          match parseStrBody r with
          | some (k, r1) =>
              match skipWs r1 with
              | ':' :: r2 =>
                  match parseVal fuel r2 with
                  | some (v, r3) => some ((k, v), r3)
                  | none => none
              | _ => none
          | none => none
      | _ => none

/-- Remaining object members after at least one has been read. -/
def parseObjRest : Nat → Str → List (Str × Json) → Option (Json × Str)
  | 0, _, _ => none
  | fuel + 1, s, acc =>
      match skipWs s with
      | '}' :: r => some (Json.obj acc.reverse, r)
      | ',' :: r =>
          match parseMember fuel r with
          | some (kv, r2) => parseObjRest fuel r2 (kv :: acc)
          | none => none
      | _ => none

end

/-- JSON.parse: parse one value, then only trailing white space may
remain, else the call throws (modelled as none). -/
def jsonParse (s : Str) : Option Json :=
  match parseVal (2 * s.length + 2) s with
  | some (v, r) => if (skipWs r).isEmpty then some v else none
  | none => none

/-- Property lookup on the member list of a parsed object: JSON.parse
keeps the last binding of a duplicated key. -/
def lookupLast (kvs : List (Str × Json)) (k : Str) : JsVal :=
  match kvs.reverse.find? (fun p => p.1 == k) with
  | some p => some p.2
  | none => none

/-- JavaScript property read x.k on a parsed value: reading from null (or
from undefined, see jsGetV) throws a TypeError, reading a missing key of
an object gives undefined, and reading the program's keys from the other
primitives gives undefined. -/
def jsGetE (v : Json) (k : Str) : Except Unit JsVal :=
  match v with
  | Json.null => Except.error ()
  | Json.obj kvs => Except.ok (lookupLast kvs k)
  | _ => Except.ok none

/-- Property read whose receiver may itself be undefined. -/
def jsGetV (v : JsVal) (k : Str) : Except Unit JsVal :=
  match v with
  | none => Except.error ()
  | some j => jsGetE j k

/-- Is a JSON number lexically zero (sign and exponent never matter). -/
def numIsZero (ip fp : Str) : Bool :=
  ip.all (fun c => c = '0') && fp.all (fun c => c = '0')

/-- JavaScript truthiness of a parsed JSON value. -/
def jsTruthy : Json → Bool
  | Json.null => false
  | Json.bool b => b
  | Json.num _ ip fp _ => !(numIsZero ip fp)
  | Json.str s => !s.isEmpty
  | Json.arr _ => true
  | Json.obj _ => true

/-- JavaScript truthiness of a value slot (undefined is falsy). -/
def jsTruthyV : JsVal → Bool
  | none => false
  | some j => jsTruthy j

/-- Lexical rendering of a parsed JSON number for string contexts.  Full
JavaScript number formatting is out of the model's scope; no rendering of
a number can collide with the stage names this value is compared to. -/
def numRender (neg : Bool) (ip fp : Str) (ex : Option (Bool × Str)) : Str :=
  (if neg then [('-' : Char)] else []) ++ ip ++
    (if fp.isEmpty then [] else '.' :: fp) ++
    (match ex with
     | none => []
     | some (esgn, eds) => 'e' :: ((if esgn then [('-' : Char)] else []) ++ eds))

mutual

/-- JavaScript template-literal stringification of a parsed JSON value,
as used for the step element id (script.js line 226). -/
def templateJson : Json → Str
  | Json.null => ("null").data
  | Json.bool true => ("true").data
  | Json.bool false => ("false").data
  | Json.str s => s
  | Json.num neg ip fp ex => numRender neg ip fp ex
  | Json.arr xs => templateArr xs
  | Json.obj _ => ("[object Object]").data
termination_by structural j => j

/-- Array.prototype.toString: elements joined by commas, null elements
rendered as the empty string. -/
def templateArr : List Json → Str
  | [] => []
  | [j] =>
      match j with
      | Json.null => []
      | j => templateJson j
  | j :: j2 :: rest =>
      (match j with
       | Json.null => []
       | j => templateJson j) ++ ',' :: templateArr (j2 :: rest)
termination_by structural l => l

end

/-- Template stringification of a value slot (undefined renders as the
word undefined). -/
def templateV : JsVal → Str
  | none => ("undefined").data
  | some j => templateJson j

/-- The four pipeline stages of the progress stepper. -/
inductive Stage where
  | planning
  | searching
  | writing
  | verifying
deriving DecidableEq, Repr

def planningT : Str := ("planning").data
def searchingT : Str := ("searching").data
def writingT : Str := ("writing").data
def verifyingT : Str := ("verifying").data

/-- Which stage a step element id suffix addresses: the page only has the
four step elements, so any other suffix makes getElementById return null
and updateProgress a no-op (script.js lines 226 to 228). -/
def stageOfName (s : Str) : Option Stage :=
  if s = planningT then some Stage.planning
  else if s = searchingT then some Stage.searching
  else if s = writingT then some Stage.writing
  else if s = verifyingT then some Stage.verifying
  else none

/-- The class list of one step element: the two classes the code toggles. -/
structure StepFlags where
  active : Bool
  completed : Bool
deriving DecidableEq, Repr

/-- One activity-log entry; the rendered time string and agent class are
derived from the stored fields, so the raw field values are kept. -/
structure LogEntry where
  timestamp : JsVal
  agent : Str
  action : JsVal
  details : JsVal

/-- The history sidebar list region. -/
inductive HistoryView where
  | initial
  | loading
  | items (xs : List Json)
  | empty
  | failed

/-- The document state the program mutates.  Regions whose exact HTML
serialization no claim consumes (metrics grid, report, verification
panel) are represented by the data that fills them; a value of none means
the region was never written since page load. -/
structure UIState where
  progressVisible : Bool
  activityVisible : Bool
  resultsVisible : Bool
  errorVisible : Bool
  stepPlanning : StepFlags
  stepSearching : StepFlags
  stepWriting : StepFlags
  stepVerifying : StepFlags
  logEntries : List LogEntry
  stockName : Option Str
  badgeText : Option Str
  badgeClass : Option Str
  metricsRegion : Option (Bool × Str)
  recommendationText : Option Str
  reportRegion : Option Str
  followUps : Option (List Json)
  verificationRegion : Option Json
  errorMessage : Option JsVal
  btnDisabled : Bool
  btnLabel : Str
  chartInstance : Option Json
  chartNoData : Nat
  historyView : HistoryView
  sidebarOpen : Bool

def getStep (s : UIState) : Stage → StepFlags
  | Stage.planning => s.stepPlanning
  | Stage.searching => s.stepSearching
  | Stage.writing => s.stepWriting
  | Stage.verifying => s.stepVerifying

def setStep (s : UIState) (st : Stage) (f : StepFlags) : UIState :=
  match st with
  | Stage.planning => { s with stepPlanning := f }
  | Stage.searching => { s with stepSearching := f }
  | Stage.writing => { s with stepWriting := f }
  | Stage.verifying => { s with stepVerifying := f }

/-- updateProgress (script.js lines 225 to 236): resolve the step element
from the template id; when done, add the completed class and remove the
active class; otherwise add the active class, leaving any completed class
in place. -/
def updateProgress (s : UIState) (stage : JsVal) (isDone : JsVal) : UIState :=
  match stageOfName (templateV stage) with
  | none => s
  | some st =>
      if jsTruthyV isDone then setStep s st ⟨false, true⟩
      else setStep s st ⟨true, (getStep s st).completed⟩

/-- showError (script.js lines 377 to 383): set the message text and
reveal the error section. -/
def showError (s : UIState) (message : JsVal) : UIState :=
  { s with errorMessage := some message, errorVisible := true }

/-- addActivityLog (script.js lines 110 to 135).  Reading a field of a
null payload, or calling toLowerCase on a non-string agent, throws before
anything is appended; otherwise the entry joins the log. -/
def addActivityLog (s : UIState) (j : Json) : Except UIState UIState :=
  match jsGetE j (("timestamp").data) with
  | Except.error _ => Except.error s
  | Except.ok ts =>
      match jsGetE j (("agent").data) with
      | Except.error _ => Except.error s
      | Except.ok ag =>
          match ag with
          | some (Json.str a) =>
              match jsGetE j (("details").data), jsGetE j (("action").data) with
              | Except.ok dv, Except.ok av =>
                  Except.ok { s with logEntries := s.logEntries ++ [⟨ts, a, av, dv⟩] }
              | _, _ => Except.error s
          | _ => Except.error s

/-- The keyword scan of displayResults (script.js lines 292 to 303),
factored as the pure classification the spec calls the recommendation
badge. -/
inductive RecBadge where
  | buy
  | sell
  | hold
deriving DecidableEq, Repr

def badgeTextOf : RecBadge → Str
  | RecBadge.buy => ("Buy").data
  | RecBadge.sell => ("Sell").data
  | RecBadge.hold => ("Hold").data

def badgeClassOf : RecBadge → Str
  | RecBadge.buy => ("recommendation-badge buy").data
  | RecBadge.sell => ("recommendation-badge sell").data
  | RecBadge.hold => ("recommendation-badge hold").data

/-- Recommendation classification of the lowercased short summary. -/
def recommendationOf (summary : Str) : RecBadge :=
  let lower := jsLower summary
  if occursIn (("buy").data) lower || occursIn (("strong").data) lower
      || occursIn (("positive").data) lower then RecBadge.buy
  else if occursIn (("sell").data) lower || occursIn (("negative").data) lower
      || occursIn (("avoid").data) lower then RecBadge.sell
  else RecBadge.hold

/-- extractCompanyName (script.js lines 268 to 279): first listed company
name contained in the lowercased text, capitalized, else a placeholder. -/
def companiesList : List Str :=
  [("amazon").data, ("apple").data, ("google").data, ("microsoft").data,
   ("tesla").data, ("meta").data, ("nvidia").data]

def capitalizeFirst (s : Str) : Str :=
  match s with
  | [] => []
  | c :: r => c.toUpper :: r

def extractCompanyName (q : Str) : Str :=
  match companiesList.find? (fun c => occursIn c (jsLower q)) with
  | some c => capitalizeFirst c
  | none => ("Company").data

/-- Is a fact-check element renderable: reading the fields of a null
element throws. -/
def factCheckOk : Json → Bool
  | Json.null => false
  | _ => true

/-- displayResults (script.js lines 282 to 374), with its mutations in
source order and a thrown TypeError modelled as the error branch carrying
the state at the throw point: the section is revealed first; the company
name and badge need a string short summary; the metrics grid needs a
non-null verification value; the report needs a string markdown report;
the follow-up list is cleared and then needs an array; the fact-check
loop throws on a null element or on a non-empty string standing where the
array should be.  The markdown conversion and the panel markup fill their
regions from the stored data. -/
def displayResults (s0 : UIState) (j : Json) : Except UIState UIState :=
  let s1 := { s0 with resultsVisible := true }
  match jsGetE j (("short_summary").data) with
  | Except.error _ => Except.error s1
  | Except.ok ssv =>
      match ssv with
      | some (Json.str ss) =>
          let s2 := { s1 with stockName := some (extractCompanyName ss) }
          let badge := recommendationOf ss
          let s3 := { s2 with badgeText := some (badgeTextOf badge),
                              badgeClass := some (badgeClassOf badge) }
          match jsGetE j (("verification").data) with
          | Except.error _ => Except.error s3
          | Except.ok vv =>
              match vv with
              | none => Except.error s3
              | some Json.null => Except.error s3
              | some v =>
                  let vflag := jsTruthyV (match jsGetE v (("verified").data) with
                                          | Except.ok x => x
                                          | Except.error _ => none)
                  let s4 := { s3 with metricsRegion := some (vflag, badgeTextOf badge) }
                  let s5 := { s4 with recommendationText := some ss }
                  match jsGetE j (("markdown_report").data) with
                  | Except.error _ => Except.error s5
                  | Except.ok mdv =>
                      match mdv with
                      | some (Json.str md) =>
                          let s6 := { s5 with reportRegion := some md }
                          let s7 := { s6 with followUps := some [] }
                          match jsGetE j (("follow_up_questions").data) with
                          | Except.error _ => Except.error s7
                          | Except.ok fqv =>
                              match fqv with
                              | some (Json.arr qs) =>
                                  let s8 := { s7 with followUps := some qs }
                                  let fcv := (match jsGetE v (("fact_checks").data) with
                                              | Except.ok x => x
                                              | Except.error _ => none)
                                  match fcv with
                                  | some (Json.arr cks) =>
                                      if cks.length > 0 then
                                        if cks.all factCheckOk then
                                          Except.ok { s8 with verificationRegion := some v }
                                        else Except.error s8
                                      else Except.ok { s8 with verificationRegion := some v }
                                  | some (Json.str cs) =>
                                      if cs.isEmpty then
                                        Except.ok { s8 with verificationRegion := some v }
                                      else Except.error s8
                                  | _ => Except.ok { s8 with verificationRegion := some v }
                              | _ => Except.error s7
                      | _ => Except.error s5
      | _ => Except.error s1

def tryAgainT : Str := ("Try Again").data

def newQueryT : Str := ("Analyze New Query").data

/-- The event dispatch chain of the stream loop (script.js lines 474 to
488): status updates the stepper, agent log appends, complete renders the
result and re-enables the button, error shows the message and re-enables
the button, anything else falls through.  A payload field read that
throws propagates out of the loop (to the surrounding catch). -/
def dispatchEvent (s : UIState) (t : Str) (j : Json) : Except UIState UIState :=
  if t = ("status").data then
    match jsGetE j (("stage").data), jsGetE j (("done").data) with
    | Except.ok stv, Except.ok dnv => Except.ok (updateProgress s stv dnv)
    | _, _ => Except.error s
  else if t = ("agent_log").data then addActivityLog s j
  else if t = ("complete").data then
    match displayResults s j with
    | Except.ok s' => Except.ok { s' with btnDisabled := false, btnLabel := newQueryT }
    | Except.error s' => Except.error s'
  else if t = ("error").data then
    match jsGetE j (("message").data) with
    | Except.ok mv =>
        Except.ok { showError s mv with btnDisabled := false, btnLabel := tryAgainT }
    | Except.error _ => Except.error s
  else Except.ok s

/-- The per-iteration walk over the complete segments (script.js lines
463 to 489): blank segments are skipped, unmatched segments are skipped,
JSON.parse failure on a matched record throws (error branch carries the
state at the throw), and a dispatched record may itself throw. -/
def processSegs (s : UIState) : List Str → Except UIState UIState
  | [] => Except.ok s
  | seg :: rest =>
      if (jsTrim seg).isEmpty then processSegs s rest
      else
        match lineCapture eventMark seg, lineCapture dataMark seg with
        | some et, some dt =>
            match jsonParse dt with
            | none => Except.error s
            | some j =>
                match dispatchEvent s et j with
                | Except.ok s' => processSegs s' rest
                | Except.error s' => Except.error s'
        | _, _ => processSegs s rest

/-- The chunked read loop (script.js lines 452 to 491): per chunk the
buffer is extended, split at blank lines, the trailing part kept, and the
complete segments dispatched in order; end of stream simply breaks. -/
def streamLoop : UIState → Str → List Str → Except UIState UIState
  | s, _, [] => Except.ok s
  | s, buf, c :: cs =>
      let parts := jsSplitSep (buf ++ c)
      match processSegs s parts.dropLast with
      | Except.ok s' => streamLoop s' (parts.getLastD []) cs
      | Except.error s' => Except.error s'

def genericErrMsg : Str :=
  ("An error occurred while processing your request. Please try again.").data

/-- The catch block of the analyze handler (script.js lines 493 to 498):
a generic message is shown and the button re-enabled. -/
def catchHandler (s : UIState) : UIState :=
  let s1 := showError s (some (Json.str genericErrMsg))
  { s1 with btnDisabled := false, btnLabel := tryAgainT }

/-- The whole stream consumption including the surrounding catch. -/
def runStream (s : UIState) (chunks : List Str) : UIState :=
  match streamLoop s [] chunks with
  | Except.ok s' => s'
  | Except.error s' => catchHandler s'

/-- resetUI (script.js lines 386 to 411): hide the four sections, clear
the activity log and the step classes, restore the button, destroy the
chart instance.  Text already rendered into hidden regions is not
cleared. -/
def resetUI (s : UIState) : UIState :=
  { s with progressVisible := false, resultsVisible := false, errorVisible := false,
           activityVisible := false, logEntries := [],
           stepPlanning := ⟨false, false⟩, stepSearching := ⟨false, false⟩,
           stepWriting := ⟨false, false⟩, stepVerifying := ⟨false, false⟩,
           btnDisabled := false, btnLabel := ("Analyze").data,
           chartInstance := none }

/-- The synchronous part of a submission after the trim guard (script.js
lines 419 to 431): reset, the chart loader's synchronous destruction of a
prior chart instance, section reveals, button disabled. -/
def submitSync (s : UIState) : UIState :=
  let s1 := resetUI s
  let s2 := { s1 with chartInstance := none }
  { s2 with progressVisible := true, activityVisible := true,
            btnDisabled := true, btnLabel := ("Analyzing...").data }

/-- How the research fetch resolves: rejection, a non-success status
(line 442 throws), or a streamed body. -/
inductive FetchOutcome where
  | netErr
  | notOk
  | okStream (chunks : List Str)

/-- Requests the handler issues, in issue order. -/
inductive Req where
  | chartReq (q : Str)
  | researchReq (q : Str)
deriving DecidableEq, Repr

/-- The analyze click handler (script.js lines 414 to 499).  The trimmed
query guards everything: an empty trim returns before any effect.  The
asynchronous completion of the concurrently running chart loader acts on
disjoint state and is modelled by loadChart separately. -/
def analyzeClick (input : Str) (s : UIState) (out : FetchOutcome) : UIState × List Req :=
  let query := jsTrim input
  if query.isEmpty then (s, [])
  else
    let s3 := submitSync s
    let reqs := [Req.chartReq query, Req.researchReq query]
    match out with
    | FetchOutcome.netErr => (catchHandler s3, reqs)
    | FetchOutcome.notOk => (catchHandler s3, reqs)
    | FetchOutcome.okStream chunks => (runStream s3 chunks, reqs)

/-- Dispatch of an already decoded and parsed event sequence: the
dispatcher portion of the loop at record granularity, with the
surrounding catch applied when a record throws. -/
def dispatchSeq (s : UIState) : List (Str × Json) → Except UIState UIState
  | [] => Except.ok s
  | (t, j) :: rest =>
      match dispatchEvent s t j with
      | Except.ok s' => dispatchSeq s' rest
      | Except.error s' => Except.error s'

def runEvents (s : UIState) (evs : List (Str × Json)) : UIState :=
  match dispatchSeq s evs with
  | Except.ok s' => s'
  | Except.error s' => catchHandler s'

/-- How the chart fetch resolves: rejection (network failure or a body
that is not JSON), a non-success status, or a parsed payload. -/
inductive ChartOutcome where
  | netErr
  | notOk
  | okJson (j : Json)

/-- loadChart (script.js lines 21 to 107): any previous chart instance is
destroyed first; a non-success response hides the canvas and appends a
no-data placeholder; an error field in the payload logs and returns; a
rejection is logged by the catch; otherwise a chart instance is created
from the payload.  The canvas element is assumed present (the page markup
is not part of the sources). -/
def loadChart (s : UIState) (out : ChartOutcome) : UIState :=
  let s1 := { s with chartInstance := none }
  match out with
  | ChartOutcome.netErr => s1
  | ChartOutcome.notOk => { s1 with chartNoData := s1.chartNoData + 1 }
  | ChartOutcome.okJson j =>
      match jsGetE j (("error").data) with
      | Except.error _ => s1
      | Except.ok ev =>
          if jsTruthyV ev then s1
          else { s1 with chartInstance := some j }

/-- How the history list fetch resolves. -/
inductive HistoryOutcome where
  | netErr
  | okJson (j : Json)

/-- Is one history item renderable by createHistoryItem (script.js lines
162 to 184): reading fields of a null item, or calling toLowerCase on a
non-string recommendation, throws inside the loop. -/
def historyItemOk (item : Json) : Bool :=
  match item with
  | Json.null => false
  | _ =>
      match jsGetE item (("recommendation").data) with
      | Except.ok (some (Json.str _)) => true
      | _ => false

/-- loadHistory (script.js lines 138 to 159): first the loading
placeholder, then the items, the empty placeholder, or on any throw the
failure placeholder.  A truthy non-array history value with a positive
length has no forEach and throws; an object payload without such a length
falls to the empty placeholder (exotic numeric coercions of an object
carried length property are outside the model). -/
def loadHistory (s : UIState) (out : HistoryOutcome) : UIState :=
  let s1 := { s with historyView := HistoryView.loading }
  match out with
  | HistoryOutcome.netErr => { s1 with historyView := HistoryView.failed }
  | HistoryOutcome.okJson j =>
      match jsGetE j (("history").data) with
      | Except.error _ => { s1 with historyView := HistoryView.failed }
      | Except.ok hv =>
          match hv with
          | some (Json.arr xs) =>
              if xs.length > 0 then
                if xs.all historyItemOk then { s1 with historyView := HistoryView.items xs }
                else { s1 with historyView := HistoryView.failed }
              else { s1 with historyView := HistoryView.empty }
          | some (Json.str cs) =>
              if cs.isEmpty then { s1 with historyView := HistoryView.empty }
              else { s1 with historyView := HistoryView.failed }
          | _ => { s1 with historyView := HistoryView.empty }

/-- How the history detail fetch resolves. -/
inductive DetailOutcome where
  | netErr
  | okJson (j : Json)

def failedDetailMsg : Str := ("Failed to load historical research").data

/-- loadHistoricalResearch (script.js lines 187 to 208): on success the
sidebar closes, a result payload is rebuilt from four fields and handed
to displayResults; any throw anywhere, including inside displayResults,
reaches the catch which calls showError with a fixed message, writing the
main error region. -/
def loadHistoricalResearch (s : UIState) (out : DetailOutcome) : UIState :=
  match out with
  | DetailOutcome.netErr => showError s (some (Json.str failedDetailMsg))
  | DetailOutcome.okJson j =>
      let s1 := { s with sidebarOpen := false }
      match jsGetE j (("short_summary").data), jsGetE j (("full_report").data),
            jsGetE j (("follow_up_questions").data), jsGetE j (("verification").data) with
      | Except.ok ssv, Except.ok frv, Except.ok fqv, Except.ok vv =>
          let withF (k : Str) (v : JsVal) : List (Str × Json) :=
            match v with
            | some x => [(k, x)]
            | none => []
          let resultData := Json.obj
            (withF (("short_summary").data) ssv ++ withF (("markdown_report").data) frv ++
             withF (("follow_up_questions").data) fqv ++ withF (("verification").data) vv)
          match displayResults s1 resultData with
          | Except.ok s2 => s2
          | Except.error s2 => showError s2 (some (Json.str failedDetailMsg))
      | _, _, _, _ => showError s1 (some (Json.str failedDetailMsg))

/-- The spec's per-stage status read off one step element's class list.
Modelled from the spec: the page style sheet is not among the sources, so
the visual precedence between a completed and an active class on the same
element is taken from the spec's invariant that a done stage stays done. -/
inductive StageStatus where
  | pending
  | active
  | done
deriving DecidableEq, Repr

def stageStatusOf (f : StepFlags) : StageStatus :=
  if f.completed then StageStatus.done
  else if f.active then StageStatus.active
  else StageStatus.pending

/-- The stage-status map of a state. -/
def stageMap (s : UIState) (st : Stage) : StageStatus :=
  stageStatusOf (getStep s st)

/-- The regions owned by the main run (phase sections, stepper, log,
result data, error, button), excluding the chart and history regions. -/
def mainRunView (s : UIState) :
    Bool × Bool × Bool × Bool × StepFlags × StepFlags × StepFlags × StepFlags ×
      List LogEntry × Option Str × Option Str × Option Str × Option (Bool × Str) ×
      Option Str × Option Str × Option (List Json) × Option Json × Option JsVal ×
      Bool × Str :=
  (s.progressVisible, s.activityVisible, s.resultsVisible, s.errorVisible,
   s.stepPlanning, s.stepSearching, s.stepWriting, s.stepVerifying,
   s.logEntries, s.stockName, s.badgeText, s.badgeClass, s.metricsRegion,
   s.recommendationText, s.reportRegion, s.followUps, s.verificationRegion,
   s.errorMessage, s.btnDisabled, s.btnLabel)

/-- A representative page-load state (the markup is not in the sources;
all theorems that depend on the state quantify over it). -/
def initState : UIState :=
  { progressVisible := false, activityVisible := false, resultsVisible := false,
    errorVisible := false,
    stepPlanning := ⟨false, false⟩, stepSearching := ⟨false, false⟩,
    stepWriting := ⟨false, false⟩, stepVerifying := ⟨false, false⟩,
    logEntries := [], stockName := none, badgeText := none, badgeClass := none,
    metricsRegion := none, recommendationText := none, reportRegion := none,
    followUps := none, verificationRegion := none, errorMessage := none,
    btnDisabled := false, btnLabel := ("Analyze").data,
    chartInstance := none, chartNoData := 0,
    historyView := HistoryView.initial, sidebarOpen := false }

/-- Records together with their parsed payloads, the spec's EventRecord
sequence of a chunk stream. -/
def decodeEvents (chunks : List Str) : List (Str × Option Json) :=
  (decodeRecords chunks).map (fun r => (r.etype, jsonParse r.edata))

/-- The name of a stage as it appears in status payloads and element
ids. -/
def stageNameOf : Stage → Str
  | Stage.planning => planningT
  | Stage.searching => searchingT
  | Stage.writing => writingT
  | Stage.verifying => verifyingT

/-- A status event record with a named stage and boolean done flag, as
the backend contract sends them. -/
def statusEv (st : Stage) (dn : Bool) : Str × Json :=
  (("status").data,
   Json.obj [(("stage").data, Json.str (stageNameOf st)), (("done").data, Json.bool dn)])

/-- Carried state of a dispatch step, whether it returned or threw. -/
def exceptState : Except UIState UIState → UIState
  | Except.ok s => s
  | Except.error s => s

end FinResearch

namespace FinResearch

theorem jsSplitSep_sample1 : jsSplitSep ("a\n\nb").data = [("a").data, ("b").data] := by decide

theorem jsSplitSep_sample2 : jsSplitSep ("a\n\n\nb").data = [("a").data, ("\nb").data] := by
  decide

theorem jsSplitSep_sample3 : jsSplitSep ("\n\n\n\n").data = [[], [], []] := by decide

/-- Emitted segments accumulate on the left and never affect the scan of
the rest of the input. -/
theorem foldl_splitStep_segs (b : Str) : ∀ segs rcur,
    List.foldl splitStep (segs, rcur) b =
      (segs ++ (List.foldl splitStep ([], rcur) b).1,
       (List.foldl splitStep ([], rcur) b).2) := by
  induction b with
  | nil => intro segs rcur; simp
  | cons c b ih =>
    intro segs rcur
    simp only [List.foldl_cons]
    by_cases h : c = '\n' ∧ rcur.head? = some '\n'
    · have e1 : splitStep (segs, rcur) c = (segs ++ [rcur.tail.reverse], []) := by
        simp [splitStep, h]
      have e2 : splitStep (([] : List Str), rcur) c = ([rcur.tail.reverse], []) := by
        simp [splitStep, h]
      rw [e1, e2, ih (segs ++ [rcur.tail.reverse]) [], ih [rcur.tail.reverse] []]
      simp
    · have e1 : splitStep (segs, rcur) c = (segs, c :: rcur) := by
        simp [splitStep, h]
      have e2 : splitStep (([] : List Str), rcur) c = ([], c :: rcur) := by
        simp [splitStep, h]
      rw [e1, e2]
      exact ih segs (c :: rcur)

/-- Re-scanning the unconsumed remainder from scratch emits nothing and
reproduces the remainder: the machine never leaves a separator
occurrence unconsumed. -/
theorem replay_remainder (s : Str) :
    List.foldl splitStep ([], []) ((List.foldl splitStep ([], []) s).2.reverse) =
      ([], (List.foldl splitStep ([], []) s).2) := by
  induction s using List.reverseRecOn with
  | nil => simp
  | append_singleton s c ih =>
    rw [List.foldl_append]
    simp only [List.foldl_cons, List.foldl_nil]
    by_cases h : c = '\n' ∧ (List.foldl splitStep ([], []) s).2.head? = some '\n'
    · have e : splitStep (List.foldl splitStep ([], []) s) c =
          ((List.foldl splitStep ([], []) s).1 ++
            [(List.foldl splitStep ([], []) s).2.tail.reverse], []) := by
        simp [splitStep, h]
      rw [e]
      simp
    · have e : splitStep (List.foldl splitStep ([], []) s) c =
          ((List.foldl splitStep ([], []) s).1,
           c :: (List.foldl splitStep ([], []) s).2) := by
        simp [splitStep, h]
      rw [e]
      simp only [List.reverse_cons, List.foldl_append, ih]
      simp [splitStep, h]

/-- Scanning a concatenation: the segments of the first part, then the
scan of its remainder glued to the second part. -/
theorem foldl_split_decompose (a b : Str) :
    List.foldl splitStep ([], []) (a ++ b) =
      ((List.foldl splitStep ([], []) a).1 ++
        (List.foldl splitStep ([], [])
          ((List.foldl splitStep ([], []) a).2.reverse ++ b)).1,
       (List.foldl splitStep ([], [])
          ((List.foldl splitStep ([], []) a).2.reverse ++ b)).2) := by
  have h2 : List.foldl splitStep ([], [])
      ((List.foldl splitStep ([], []) a).2.reverse ++ b) =
      List.foldl splitStep ([], (List.foldl splitStep ([], []) a).2) b := by
    rw [List.foldl_append, replay_remainder]
  rw [List.foldl_append, h2]
  exact foldl_splitStep_segs b (List.foldl splitStep ([], []) a).1
    (List.foldl splitStep ([], []) a).2

/-- The split of a concatenation in terms of the split of the first part
and the split of its popped remainder glued to the second part. -/
theorem jsSplitSep_decompose (a b : Str) :
    jsSplitSep (a ++ b) =
      (jsSplitSep a).dropLast ++ jsSplitSep ((jsSplitSep a).getLastD [] ++ b) := by
  simp only [jsSplitSep, List.dropLast_concat, List.getLastD_concat]
  rw [foldl_split_decompose a b]
  simp [List.append_assoc]

/-- A buffer that replays to itself (no separator consumed) makes the
per-chunk loop equal to a single split of the whole remaining body. -/
theorem feedChunks_eq (cs : List Str) : ∀ buf : Str,
    List.foldl splitStep ([], []) buf = ([], buf.reverse) →
    feedChunks buf cs = (jsSplitSep (buf ++ cs.flatten)).dropLast := by
  induction cs with
  | nil =>
    intro buf h
    simp only [feedChunks, List.flatten_nil, List.append_nil, jsSplitSep, h]
    simp
  | cons c cs ih =>
    intro buf h
    simp only [feedChunks, List.flatten_cons]
    have hb' : List.foldl splitStep ([], []) ((jsSplitSep (buf ++ c)).getLastD []) =
        ([], ((jsSplitSep (buf ++ c)).getLastD []).reverse) := by
      simp only [jsSplitSep, List.getLastD_concat, List.reverse_reverse]
      exact replay_remainder (buf ++ c)
    rw [ih _ hb']
    have hassoc : buf ++ (c ++ cs.flatten) = (buf ++ c) ++ cs.flatten := by
      rw [List.append_assoc]
    rw [hassoc, jsSplitSep_decompose (buf ++ c) cs.flatten]
    simp only [jsSplitSep, List.getLastD_concat, List.dropLast_concat]
    have hdl : ∀ (a b : List Str) (x : Str), (a ++ (b ++ [x])).dropLast = a ++ b := by
      intro a b x
      rw [← List.append_assoc, List.dropLast_concat]
    rw [hdl]

/-- The decode loop is chunk-boundary invariant at the record level. -/
theorem decodeRecords_single (chunks : List Str) :
    decodeRecords chunks = decodeRecords [chunks.flatten] := by
  unfold decodeRecords
  have h0 : List.foldl splitStep ([], []) ([] : Str) = ([], ([] : Str).reverse) := rfl
  rw [feedChunks_eq chunks [] h0, feedChunks_eq [chunks.flatten] [] h0]
  simp

/-- The length of the scan remainder never exceeds the input length. -/
theorem foldl_split_len (s : Str) : ∀ acc : List Str × Str,
    (List.foldl splitStep acc s).2.length ≤ acc.2.length + s.length := by
  induction s with
  | nil => intro acc; simp
  | cons c s ih =>
    intro acc
    simp only [List.foldl_cons]
    refine le_trans (ih (splitStep acc c)) ?_
    by_cases h : c = '\n' ∧ acc.2.head? = some '\n'
    · simp only [splitStep, if_pos h, List.length_nil, List.length_cons]
      omega
    · simp only [splitStep, if_neg h, List.length_cons]
      omega

/-- The complete core is what the machine consumed: gluing the remainder
back restores the body, and scanning the core emits the same segments
with an empty remainder. -/
theorem machine_completeCore (s : Str) :
    completeCore s ++ remTail s = s ∧
      List.foldl splitStep ([], []) (completeCore s) =
        ((List.foldl splitStep ([], []) s).1, []) := by
  induction s using List.reverseRecOn with
  | nil => exact ⟨rfl, rfl⟩
  | append_singleton s c ih =>
    have hlen : (List.foldl splitStep ([], []) s).2.length ≤ s.length := by
      simpa using foldl_split_len s ([], [])
    by_cases h : c = '\n' ∧ (List.foldl splitStep ([], []) s).2.head? = some '\n'
    · have e : List.foldl splitStep ([], []) (s ++ [c]) =
          ((List.foldl splitStep ([], []) s).1 ++
            [(List.foldl splitStep ([], []) s).2.tail.reverse], []) := by
        rw [List.foldl_append]
        simp only [List.foldl_cons, List.foldl_nil]
        simp [splitStep, h]
      constructor
      · simp [completeCore, remTail, e]
      · simp only [completeCore, remTail, e, List.reverse_nil, List.length_nil,
          Nat.sub_zero, List.take_length]
    · have e : List.foldl splitStep ([], []) (s ++ [c]) =
          ((List.foldl splitStep ([], []) s).1,
           c :: (List.foldl splitStep ([], []) s).2) := by
        rw [List.foldl_append]
        simp only [List.foldl_cons, List.foldl_nil]
        simp [splitStep, h]
      have hcc : completeCore (s ++ [c]) = completeCore s := by
        simp only [completeCore, remTail, e, List.reverse_cons, List.length_append,
          List.length_reverse, List.length_cons, List.length_nil]
        have harith : s.length + 1 - ((List.foldl splitStep ([], []) s).2.length + 1) =
            s.length - (List.foldl splitStep ([], []) s).2.length := by omega
        rw [List.take_append_eq_append_take]
        have hle : s.length + 1 - ((List.foldl splitStep ([], []) s).2.length + 1) ≤
            s.length := by omega
        simp [harith, List.length_reverse]
      constructor
      · have h1 := ih.1
        simp only [remTail, e, List.reverse_cons] at *
        rw [hcc, ← List.append_assoc, h1]
      · rw [hcc, e]
        exact ih.2

/-- A body and its complete core decode to the same records. -/
theorem decodeRecords_completeCore (b : Str) :
    decodeRecords [b] = decodeRecords [completeCore b] := by
  unfold decodeRecords
  have hf : ∀ x : Str, feedChunks [] [x] = (jsSplitSep x).dropLast := by
    intro x
    simp [feedChunks]
  rw [hf b, hf (completeCore b)]
  simp only [jsSplitSep, List.dropLast_concat]
  rw [(machine_completeCore b).2]

theorem decode_sample :
    decodeRecords [("event: status\ndata: \x7b\"stage\": \"planning\"\x7d\n\nevent: x\n\n").data] =
      [⟨("status").data, ("\x7b\"stage\": \"planning\"\x7d").data⟩] := by decide

theorem decode_sample_midframe :
    decodeRecords [("event: status\ndata: 1\n\nevent: complete\ndata: 2").data] =
      [⟨("status").data, ("1").data⟩] := by decide

/-- Claim C3: feeding the chunks of a body one at a time through the
buffer, split, pop loop yields exactly the record and event sequence of
feeding the whole body as one chunk; the property holds for every chunk
sequence, in particular for every splitting of a well-formed SSE body. -/
theorem claim_C3_chunk_invariance (chunks : List Str) :
    decodeRecords chunks = decodeRecords [chunks.flatten] ∧
      decodeEvents chunks = decodeEvents [chunks.flatten] := by
  refine ⟨decodeRecords_single chunks, ?_⟩
  unfold decodeEvents
  rw [decodeRecords_single chunks]

/-- Claim C4: a stream ending in an unterminated trailing fragment
decodes exactly as the same stream truncated right after the last
complete record separator; the trailing fragment is never yielded. -/
theorem claim_C4_trailing_discard (chunks : List Str) :
    decodeRecords chunks = decodeRecords [completeCore chunks.flatten] ∧
      decodeEvents chunks = decodeEvents [completeCore chunks.flatten] := by
  have h1 : decodeRecords chunks = decodeRecords [completeCore chunks.flatten] := by
    rw [decodeRecords_single chunks, decodeRecords_completeCore]
  refine ⟨h1, ?_⟩
  unfold decodeEvents
  rw [h1]

end FinResearch

namespace FinResearch

theorem getStep_setStep (s : UIState) (st st' : Stage) (f : StepFlags) :
    getStep (setStep s st' f) st = if st = st' then f else getStep s st := by
  cases st <;> cases st' <;> rfl

/-- A completed class already present on a step survives any further
updateProgress call. -/
theorem updateProgress_keeps_completed (s : UIState) (stv dnv : JsVal) (st : Stage)
    (h : (getStep s st).completed = true) :
    (getStep (updateProgress s stv dnv) st).completed = true := by
  unfold updateProgress
  cases hS : stageOfName (templateV stv) with
  | none => exact h
  | some st' =>
      by_cases hd : jsTruthyV dnv = true
      · simp only [hd, if_true, getStep_setStep]
        by_cases he : st = st'
        · simp [he]
        · simp [he, h]
      · simp only [hd, Bool.false_eq_true, if_false, getStep_setStep]
        by_cases he : st = st'
        · subst he; simp [h]
        · simp [he, h]

theorem catchHandler_getStep (s : UIState) (st : Stage) :
    getStep (catchHandler s) st = getStep s st := by
  cases st <;> rfl

theorem addActivityLog_getStep (s : UIState) (j : Json) (st : Stage) :
    getStep (exceptState (addActivityLog s j)) st = getStep s st := by
  cases st <;>
    · simp only [getStep]
      unfold addActivityLog exceptState
      split <;> rename_i s' heq <;> (repeat' split at heq) <;>
        first
          | (injection heq with h; subst h; rfl)
          | exact Except.noConfusion heq

theorem displayResults_getStep (s : UIState) (j : Json) (st : Stage) :
    getStep (exceptState (displayResults s j)) st = getStep s st := by
  cases st <;>
    · simp only [getStep]
      unfold displayResults exceptState
      split <;> rename_i s' heq <;> (dsimp only [] at heq) <;> (repeat' split at heq) <;>
        first
          | (injection heq with h; subst h; rfl)
          | exact Except.noConfusion heq

/-- Every dispatched event, whether it returns or throws, leaves an
already completed step marking in place. -/
theorem dispatchEvent_keeps_completed (s : UIState) (t : Str) (j : Json) (st : Stage)
    (h : (getStep s st).completed = true) :
    (getStep (exceptState (dispatchEvent s t j)) st).completed = true := by
  unfold dispatchEvent
  by_cases h1 : t = ("status").data
  · simp only [h1, if_true]
    rcases hA : jsGetE j (("stage").data) with eA | vA <;>
      rcases hB : jsGetE j (("done").data) with eB | vB <;>
        simp only [exceptState]
    · exact h
    · exact h
    · exact h
    · exact updateProgress_keeps_completed s vA vB st h
  · simp only [h1, if_false]
    by_cases h2 : t = ("agent_log").data
    · simp only [h2, if_true]
      rw [← addActivityLog_getStep s j st] at h
      exact h
    · simp only [h2, if_false]
      by_cases h3 : t = ("complete").data
      · simp only [h3, if_true]
        rcases hD : displayResults s j with sE | sO <;> simp only [exceptState]
        · have := displayResults_getStep s j st
          rw [hD] at this
          simp only [exceptState] at this
          rw [this]
          exact h
        · have := displayResults_getStep s j st
          rw [hD] at this
          simp only [exceptState] at this
          have h' : (getStep sO st).completed = true := by rw [this]; exact h
          cases st <;> simpa [getStep] using h'
      · simp only [h3, if_false]
        by_cases h4 : t = ("error").data
        · simp only [h4, if_true]
          rcases hM : jsGetE j (("message").data) with eM | vM <;> simp only [exceptState]
          · exact h
          · cases st <;> simpa [getStep, showError] using h
        · simp only [h4, if_false, exceptState]
          exact h

theorem runEvents_keeps_completed (evs : List (Str × Json)) : ∀ (s : UIState) (st : Stage),
    (getStep s st).completed = true →
    (getStep (runEvents s evs) st).completed = true := by
  induction evs with
  | nil => intro s st h; exact h
  | cons e evs ih =>
      intro s st h
      obtain ⟨t, j⟩ := e
      have hkeep := dispatchEvent_keeps_completed s t j st h
      unfold runEvents dispatchSeq
      cases hD : dispatchEvent s t j with
      | ok s' =>
          rw [hD] at hkeep
          simp only [exceptState] at hkeep
          have h2 := ih s' st hkeep
          unfold runEvents at h2
          exact h2
      | error s' =>
          rw [hD] at hkeep
          simp only [exceptState] at hkeep
          rw [catchHandler_getStep]
          exact hkeep

theorem stageStatusOf_done_iff (f : StepFlags) :
    stageStatusOf f = StageStatus.done ↔ f.completed = true := by
  rcases f with ⟨a, c⟩
  cases a <;> cases c <;> simp [stageStatusOf]

/-- Claim C6: within one run, once a stage's status is done, no event the
dispatcher subsequently processes reverts it to active or pending; the
done marking persists. -/
theorem claim_C6_done_persists (s : UIState) (evs : List (Str × Json)) (st : Stage)
    (h : stageMap s st = StageStatus.done) :
    stageMap (runEvents s evs) st = StageStatus.done := by
  unfold stageMap at *
  rw [stageStatusOf_done_iff] at *
  exact runEvents_keeps_completed evs s st h

def c6State : UIState := setStep (submitSync initState) Stage.planning ⟨false, true⟩

def c6Events : List (Str × Json) :=
  [statusEv Stage.planning false, statusEv Stage.searching true]

theorem claim_C6_witness :
    stageMap c6State Stage.planning = StageStatus.done ∧
      stageMap (runEvents c6State c6Events) Stage.planning = StageStatus.done :=
  ⟨by decide, claim_C6_done_persists c6State c6Events Stage.planning (by decide)⟩

end FinResearch

namespace FinResearch

/-- Dispatching one named status event reduces to the updateProgress
marking of its stage. -/
theorem runEvents_status (s : UIState) (st : Stage) (dn : Bool) :
    runEvents s [statusEv st dn] =
      (if dn then setStep s st ⟨false, true⟩
       else setStep s st ⟨true, (getStep s st).completed⟩) := by
  cases st <;> cases dn <;> rfl

def c5Start : UIState := submitSync initState

def c5After : UIState :=
  runEvents c5Start [statusEv Stage.planning true, statusEv Stage.planning false]

/-- Claim C5 counterexample: after status planning done, a further status
planning active event leaves planning done (the completed class is never
removed), while the claim's general rule, a status event marks its stage
active whenever done is false, demands active here. -/
theorem claim_C5_counterexample :
    stageMap c5After Stage.planning = StageStatus.done ∧
      ¬ stageMap c5After Stage.planning = StageStatus.active := by decide

/-- Claim C5 as amended: the concrete three-event run gives exactly the
claimed map, a status event with done true marks its stage done, a status
event with done false marks its stage active unless the stage is already
done, in which case the done marking persists, and every other stage is
left unchanged. -/
theorem claim_C5_amended :
    (stageMap (runEvents c5Start
        [statusEv Stage.planning false, statusEv Stage.planning true,
         statusEv Stage.searching false]) Stage.planning = StageStatus.done ∧
     stageMap (runEvents c5Start
        [statusEv Stage.planning false, statusEv Stage.planning true,
         statusEv Stage.searching false]) Stage.searching = StageStatus.active ∧
     stageMap (runEvents c5Start
        [statusEv Stage.planning false, statusEv Stage.planning true,
         statusEv Stage.searching false]) Stage.writing = StageStatus.pending ∧
     stageMap (runEvents c5Start
        [statusEv Stage.planning false, statusEv Stage.planning true,
         statusEv Stage.searching false]) Stage.verifying = StageStatus.pending) ∧
    (∀ (s : UIState) (st : Stage),
        stageMap (runEvents s [statusEv st true]) st = StageStatus.done) ∧
    (∀ (s : UIState) (st : Stage),
        (getStep s st).completed = false →
        stageMap (runEvents s [statusEv st false]) st = StageStatus.active) ∧
    (∀ (s : UIState) (st : Stage),
        (getStep s st).completed = true →
        stageMap (runEvents s [statusEv st false]) st = StageStatus.done) ∧
    (∀ (s : UIState) (st st' : Stage) (dn : Bool), st' ≠ st →
        getStep (runEvents s [statusEv st dn]) st' = getStep s st') := by
  refine ⟨by decide, ?_, ?_, ?_, ?_⟩
  · intro s st
    rw [runEvents_status, if_pos rfl]
    unfold stageMap
    rw [getStep_setStep, if_pos rfl]
    rfl
  · intro s st h
    rw [runEvents_status]
    simp only [Bool.false_eq_true, if_false]
    unfold stageMap
    rw [getStep_setStep, if_pos rfl]
    simp [stageStatusOf, h]
  · intro s st h
    rw [runEvents_status]
    simp only [Bool.false_eq_true, if_false]
    unfold stageMap
    rw [getStep_setStep, if_pos rfl]
    simp [stageStatusOf, h]
  · intro s st st' dn h
    rw [runEvents_status]
    cases dn <;> simp only [if_true, Bool.false_eq_true, if_false] <;>
      rw [getStep_setStep, if_neg h]

theorem claim_C5_amended_witness :
    stageMap (runEvents c5Start [statusEv Stage.searching false]) Stage.searching =
        StageStatus.active ∧
      getStep (runEvents c5Start [statusEv Stage.searching false]) Stage.writing =
        getStep c5Start Stage.writing :=
  ⟨claim_C5_amended.2.2.1 c5Start Stage.searching (by decide),
   claim_C5_amended.2.2.2.2 c5Start Stage.searching Stage.writing false (by decide)⟩

end FinResearch

namespace FinResearch

def run1Mid : UIState := runEvents (submitSync initState) [statusEv Stage.planning true]

def run2Fresh : UIState := submitSync run1Mid

/-- Claim C2: the handler keeps no generation tag, so an event of the
abandoned first stream that is dispatched after the second submission's
synchronous reset mutates the fresh run's stepper: the fresh state has
planning pending, and dispatching the stale status event marks it done. -/
theorem claim_C2_guard_missing :
    stageMap run2Fresh Stage.planning = StageStatus.pending ∧
      stageMap (runEvents run2Fresh [statusEv Stage.planning true]) Stage.planning =
        StageStatus.done := by decide

def badChunk : Str :=
  ("event: agent_log\ndata: \x7boops\n\nevent: status\ndata: \x7b\"stage\": \"planning\", \"done\": true\x7d\n\n").data

def c1Final : UIState :=
  (analyzeClick (("Tesla stock outlook").data) initState (FetchOutcome.okStream [badChunk])).1

/-- Claim C1 counterexample: a stream whose first record has malformed
JSON and whose second record is a complete status planning done.  The
claim demands that only the malformed record be skipped, the following
record be processed and the run not fail; the code instead aborts the
loop at JSON.parse, never processes the status record, and lands in the
error state with the retry label. -/
theorem claim_C1_counterexample :
    c1Final.errorVisible = true ∧ (getStep c1Final Stage.planning).completed = false ∧
      c1Final.btnLabel = tryAgainT := by decide

/-- Claim C1 as amended: a matched record whose data line is malformed
JSON throws out of the segment walk with the state reached so far, so no
later record of the stream is processed; the surrounding catch then shows
the generic error message and re-enables the button as Try Again. -/
theorem claim_C1_amended (s : UIState) (seg : Str) (rest : List Str) (et dt : Str)
    (hT : (jsTrim seg).isEmpty = false)
    (hE : lineCapture eventMark seg = some et)
    (hD : lineCapture dataMark seg = some dt)
    (hJ : jsonParse dt = none) :
    processSegs s (seg :: rest) = Except.error s ∧
      ∀ s' : UIState,
        (catchHandler s').errorVisible = true ∧
          (catchHandler s').errorMessage = some (some (Json.str genericErrMsg)) ∧
          (catchHandler s').btnDisabled = false ∧
          (catchHandler s').btnLabel = tryAgainT := by
  constructor
  · unfold processSegs
    simp [hT, hE, hD, hJ]
  · intro s'
    exact ⟨rfl, rfl, rfl, rfl⟩

def badSeg : Str := ("event: agent_log\ndata: \x7boops").data

theorem claim_C1_amended_witness :
    (processSegs initState [badSeg] = Except.error initState ∧
      ∀ s' : UIState,
        (catchHandler s').errorVisible = true ∧
          (catchHandler s').errorMessage = some (some (Json.str genericErrMsg)) ∧
          (catchHandler s').btnDisabled = false ∧
          (catchHandler s').btnLabel = tryAgainT) :=
  claim_C1_amended initState badSeg [] (("agent_log").data) (("\x7boops").data)
    (by decide) (by decide) (by decide) rfl

end FinResearch

namespace FinResearch

def buyKeys : List Str := [("buy").data, ("strong").data, ("positive").data]

def sellKeys : List Str := [("sell").data, ("negative").data, ("avoid").data]

/-- Claim C7: the recommendation badge is Buy when the lowercased short
summary contains any Buy keyword, else Sell when it contains any Sell
keyword, else Hold; the Buy set is checked first, so a summary holding
keywords of both sets classifies Buy, and the concrete sentence of the
spec classifies Buy. -/
theorem claim_C7_classification :
    recommendationOf (("We recommend a strong buy despite some negative risk").data) =
        RecBadge.buy ∧
    (∀ s : Str, (buyKeys.any fun k => occursIn k (jsLower s)) = true →
        recommendationOf s = RecBadge.buy) ∧
    (∀ s : Str, (buyKeys.any fun k => occursIn k (jsLower s)) = false →
        (sellKeys.any fun k => occursIn k (jsLower s)) = true →
        recommendationOf s = RecBadge.sell) ∧
    (∀ s : Str, (buyKeys.any fun k => occursIn k (jsLower s)) = false →
        (sellKeys.any fun k => occursIn k (jsLower s)) = false →
        recommendationOf s = RecBadge.hold) := by
  refine ⟨by decide, ?_, ?_, ?_⟩
  · intro s h
    simp only [buyKeys, List.any_cons, List.any_nil, Bool.or_false] at h
    unfold recommendationOf
    cases h1 : occursIn (("buy").data) (jsLower s) <;>
      cases h2 : occursIn (("strong").data) (jsLower s) <;>
        cases h3 : occursIn (("positive").data) (jsLower s) <;>
          simp_all
  · intro s hB hS
    simp only [buyKeys, sellKeys, List.any_cons, List.any_nil, Bool.or_false] at hB hS
    unfold recommendationOf
    cases h1 : occursIn (("sell").data) (jsLower s) <;>
      cases h2 : occursIn (("negative").data) (jsLower s) <;>
        cases h3 : occursIn (("avoid").data) (jsLower s) <;>
          simp_all
  · intro s hB hS
    simp only [buyKeys, sellKeys, List.any_cons, List.any_nil, Bool.or_false] at hB hS
    unfold recommendationOf
    simp_all

theorem claim_C7_witness :
    recommendationOf (("strong sell risk").data) = RecBadge.buy :=
  claim_C7_classification.2.1 (("strong sell risk").data) (by decide)

def c8Detail : UIState := loadHistoricalResearch initState DetailOutcome.netErr

/-- Claim C8 counterexample: a failing history-detail fetch reaches the
loader's catch, which calls showError and thereby writes the main run's
error region, which the claim says is never mutated by a side-channel
failure. -/
theorem claim_C8_counterexample :
    c8Detail.errorVisible = true ∧ initState.errorVisible = false ∧
      c8Detail.errorMessage = some (some (Json.str failedDetailMsg)) ∧
      initState.errorMessage = none :=
  ⟨rfl, rfl, rfl, rfl⟩

/-- Claim C8 as amended: the chart and history-list loaders degrade to
their own placeholder states and never touch any main-run region on any
outcome, but the history-detail loader on failure surfaces the failure
through the main error banner. -/
theorem claim_C8_amended :
    (∀ (s : UIState) (out : ChartOutcome), mainRunView (loadChart s out) = mainRunView s) ∧
    (∀ (s : UIState) (out : HistoryOutcome), mainRunView (loadHistory s out) = mainRunView s) ∧
    (∀ s : UIState, (loadHistoricalResearch s DetailOutcome.netErr).errorVisible = true ∧
        (loadHistoricalResearch s DetailOutcome.netErr).errorMessage =
          some (some (Json.str failedDetailMsg))) := by
  refine ⟨?_, ?_, ?_⟩
  · intro s out
    cases out with
    | netErr => rfl
    | notOk => rfl
    | okJson j =>
        unfold loadChart
        dsimp only []
        (repeat' split) <;> rfl
  · intro s out
    cases out with
    | netErr => rfl
    | okJson j =>
        unfold loadHistory
        dsimp only []
        (repeat' split) <;> rfl
  · intro s
    exact ⟨rfl, rfl⟩

end FinResearch

namespace FinResearch

def completePayload : Json := Json.obj
  [(("short_summary").data, Json.str ("Apple looks strong").data),
   (("markdown_report").data, Json.str ("Report body").data),
   (("follow_up_questions").data, Json.arr []),
   (("verification").data, Json.obj
     [(("verified").data, Json.bool true), (("issues").data, Json.str ("None").data)])]

def c9AfterComplete : UIState :=
  runEvents (submitSync initState) [(("complete").data, completePayload)]

def c9AfterLateError : UIState :=
  runEvents c9AfterComplete
    [(("error").data, Json.obj [(("message").data, Json.str ("boom").data)])]

/-- Claim C9 counterexample: after a complete event has terminated the
run (results shown, button reading Analyze New Query), a later error
event on the same stream is not ignored: it reveals the error banner and
replaces the button label, changing the established terminal outcome. -/
theorem claim_C9_counterexample :
    c9AfterComplete.btnLabel = newQueryT ∧ c9AfterComplete.errorVisible = false ∧
      c9AfterLateError.errorVisible = true ∧ c9AfterLateError.btnLabel = tryAgainT ∧
      ¬ c9AfterLateError.btnLabel = c9AfterComplete.btnLabel := by decide

/-- Claim C9 as amended: the dispatcher keeps no terminal flag.  An agent
log event still only appends to the log in any state, but a later error
event in any state, terminal or not, re-executes its full effect, showing
the banner and overwriting the button label; a terminal outcome is never
protected. -/
theorem claim_C9_amended :
    (∀ (s : UIState) (ts act det : Json) (a : Str),
        runEvents s [(("agent_log").data,
            Json.obj [(("timestamp").data, ts), (("agent").data, Json.str a),
                      (("action").data, act), (("details").data, det)])] =
          { s with logEntries := s.logEntries ++ [⟨some ts, a, some act, some det⟩] }) ∧
    (∀ (s : UIState) (m : Json),
        runEvents s [(("error").data, Json.obj [(("message").data, m)])] =
          { s with errorMessage := some (some m), errorVisible := true,
                   btnDisabled := false, btnLabel := tryAgainT }) := by
  constructor
  · intro s ts act det a
    rfl
  · intro s m
    rfl

/-- Claim C10: a query whose trim is empty makes the whole click handler
return before any effect: the state is untouched and no request is
issued. -/
theorem claim_C10_noop (input : Str) (s : UIState) (out : FetchOutcome)
    (h : (jsTrim input).isEmpty = true) :
    analyzeClick input s out = (s, []) := by
  unfold analyzeClick
  simp [h]

theorem claim_C10_witness :
    analyzeClick (("   ").data) initState FetchOutcome.netErr = (initState, []) :=
  claim_C10_noop (("   ").data) initState FetchOutcome.netErr (by decide)

end FinResearch
